import Mathlib

/-!
# Verification of nostrdb-rs against its specification

This file gives a shallow embedding, in Lean, of the parts of the
nostrdb-rs Rust bindings that the checked claims are about, and settles
each claim with a theorem.

Conventions used throughout:

* Machine integers (`u16`, `u32`, `u64`, `usize`) are embedded as `Nat`,
  with explicit `% 2 ^ w` arithmetic at the points where the Rust code
  can wrap.
* Calls into the C library (`bindings::ndb_*`) whose implementation is
  not part of this repository are represented either by oracle
  parameters (when only their success or result stream matters) or by
  definitions modelled from the specification, each marked
  `Modelled from the spec:` in its doc comment.
* Fallible Rust functions returning `Result<T, Error>` become
  `Except Error T`; functions returning `Option<T>` become `Option T`.
-/

namespace Nostrdb

/-- Filter misuse errors, mirroring `FilterError` in `src/error.rs`. -/
inductive FilterError where
  | FieldAlreadyExists
  | FieldAlreadyStarted
deriving DecidableEq, Repr

/-- Library error type, mirroring `Error` in `src/error.rs`. -/
inductive Error where
  | DbOpenFailed
  | NotFound
  | DecodeError
  | QueryError
  | NoteProcessFailed
  | TransactionFailed
  | SubscriptionError
  | BufferOverflow
  | Filter (e : FilterError)
deriving DecidableEq, Repr

/-! ## C1: `Ndb::new` mapsize retry loop (`src/ndb.rs` lines 70-117)

`Ndb::new` calls the external `ndb_init` in a loop.  We abstract
`ndb_init` (C code, not in this repository) as an oracle
`init : Nat → Bool` telling, for each configured mapsize, whether
initialization succeeds; the directory and the rest of the
configuration are fixed throughout the loop, so the mapsize is the only
varying input. -/

/-- `min_mapsize` in `Ndb::new`: `1024 * 1024 * 512` bytes (512 MiB). -/
def minMapsize : Nat := 1024 * 1024 * 512

/-- The retry loop of `Ndb::new` (`src/ndb.rs` lines 96-113): try
`ndb_init` with the current mapsize; on failure halve the mapsize and
retry while the halved mapsize is still strictly above `minMapsize`.
Returns the mapsize of the first successful attempt, or `none` when
every attempt failed. -/
def ndbInitLoop (init : Nat → Bool) (mapsize : Nat) : Option Nat :=
  if init mapsize then
    some mapsize
  else
    let halved := mapsize / 2
    if minMapsize < halved then ndbInitLoop init halved else none
termination_by mapsize
decreasing_by
  simp only [minMapsize] at *
  omega

/-- `Ndb::new` (`src/ndb.rs` lines 58-123), restricted to its
initialization result: `Err(DbOpenFailed)` when the loop exhausted all
attempts, otherwise `Ok` with the mapsize that succeeded. -/
def ndbNew (init : Nat → Bool) (mapsize : Nat) : Except Error Nat :=
  match ndbInitLoop init mapsize with
  | some m => .ok m
  | none => .error .DbOpenFailed

/-- The list of mapsizes that `Ndb::new` attempts, in order: the
configured mapsize followed by successive halvings while they stay
strictly above `minMapsize`. -/
def mapsizeAttempts (mapsize : Nat) : List Nat :=
  mapsize :: (if minMapsize < mapsize / 2 then mapsizeAttempts (mapsize / 2) else [])
termination_by mapsize
decreasing_by
  simp only [minMapsize] at *
  omega

/-! ## C9: `Ndb::search_profile` result bound (`src/ndb.rs` lines 433-488)

The C cursor functions `ndb_search_profile` / `ndb_search_profile_next`
are abstracted by the stream `found : List α` of profile keys the
cursor would yield in order.  The Rust control flow is embedded
exactly: the first hit is pushed unconditionally, then the loop pulls
up to `limit` further hits. -/

/-- The `while remaining > 0` loop of `Ndb::search_profile`
(`src/ndb.rs` lines 467-481): pull the next search result; stop when
the cursor is exhausted; otherwise push it and decrement `remaining`. -/
def searchProfileLoop {α : Type} : List α → Nat → List α
  | _, 0 => []
  | [], _ + 1 => []
  | x :: xs, n + 1 => x :: searchProfileLoop xs n

/-- `Ndb::search_profile` (`src/ndb.rs` lines 433-488) over the result
stream `found`: empty when the initial `ndb_search_profile` call finds
nothing; otherwise the first hit followed by the loop over the rest. -/
def searchProfile {α : Type} (found : List α) (limit : Nat) : List α :=
  match found with
  | [] => []
  | first :: rest => first :: searchProfileLoop rest limit

/-! ## C10: `NoteMetadata::entry_at` bounds check (`src/metadata.rs` lines 440-450)

`count` is the `u16` returned by the C accessor
`ndb_note_meta_entries_count`; `mem` abstracts the memory the C
`ndb_note_meta_entry_at` pointer arithmetic would read, so that reading
index `i` yields `mem.getD i 0` (the read itself never fails: the C
call just offsets a pointer). -/

/-- A note-metadata blob: its `u16` entry count and the abstract memory
of entry words behind it. -/
structure NoteMeta where
  count : Nat
  mem : List Nat
deriving DecidableEq, Repr

/-- `NoteMetadata::entry_at` (`src/metadata.rs` lines 440-450).  The
Rust guard is `index > self.count() - 1` on `u16` values; the
subtraction wraps modulo `2 ^ 16` when `count` is `0`, which is
embedded here as `(count + 65535) % 65536`. -/
def NoteMeta.entry_at (m : NoteMeta) (index : Nat) : Option Nat :=
  if index > (m.count + 65535) % 65536 then
    none
  else
    some (m.mem.getD index 0)

/-! ## C2: NIP-10 reply parsing (`src/util/nip10.rs`)

Note tags are embedded through the view the Rust code reads them with:
`NdbStr::variant()` (`src/ndb_str.rs`) yields either a packed 32-byte
id or a string, so a tag is a list of such variants and a note's tags
are a list of tags. -/

/-- A 32-byte id, abstracted as its byte list. -/
abbrev NoteId := List Nat

/-- `NdbStrVariant` (`src/ndb_str.rs`): a tag element is either a
packed 32-byte id or a string. -/
inductive NdbStrVariant where
  | id (v : NoteId)
  | str (s : String)
deriving DecidableEq, Repr

/-- `NdbStrVariant::id` (`src/ndb_str.rs`): `Some` only on the id
variant.  Named `getId` because `id` is taken by the constructor. -/
def NdbStrVariant.getId : NdbStrVariant → Option NoteId
  | .id v => some v
  | _ => none

/-- `NdbStrVariant::str` (`src/ndb_str.rs`): `Some` only on the string
variant. -/
def NdbStrVariant.getStr : NdbStrVariant → Option String
  | .str s => some s
  | _ => none

/-- `Marker` (`src/util/nip10.rs` lines 3-8). -/
inductive Marker where
  | Reply
  | Root
  | Mention
deriving DecidableEq, Repr

/-- `Marker::new` (`src/util/nip10.rs` lines 161-173). -/
def Marker.new (s : String) : Option Marker :=
  if s = "reply" then some .Reply
  else if s = "root" then some .Root
  else if s = "mention" then some .Mention
  else none

/-- `NoteIdRef` (`src/util/nip10.rs` lines 11-17). -/
structure NoteIdRef where
  index : Nat
  id : NoteId
  relay : Option String
  marker : Option Marker
deriving DecidableEq, Repr

/-- `NoteReply` (`src/util/nip10.rs` lines 98-103). -/
structure NoteReply where
  root : Option NoteIdRef
  reply : Option NoteIdRef
  mention : Option NoteIdRef
deriving DecidableEq, Repr

/-- `tag_to_noteid_ref` (`src/util/nip10.rs` lines 218-249): reject
tags with fewer than two elements, a non-`"e"` name, or a non-id second
element; the relay is the third element when it is a non-empty string,
the marker is parsed from the fourth element. -/
def tagToNoteidRef (tag : List NdbStrVariant) (index : Nat) :
    Except Error NoteIdRef :=
  if tag.length < 2 then .error .DecodeError
  else if (tag.getD 0 (.str "")).getStr ≠ some "e" then .error .DecodeError
  else
    match (tag.getD 1 (.str "")).getId with
    | none => .error .DecodeError
    | some i =>
      let relay :=
        match (tag.get? 2).bind NdbStrVariant.getStr with
        | some s => if s.isEmpty then none else some s
        | none => none
      let marker := ((tag.get? 3).bind NdbStrVariant.getStr).bind Marker.new
      .ok ⟨index, i, relay, marker⟩

/-- Loop state of `tags_to_note_reply` (`src/util/nip10.rs` lines
176-181): the three slots plus the `first` and `any_marker` flags. -/
structure ReplyLoopState where
  root : Option NoteIdRef
  reply : Option NoteIdRef
  mention : Option NoteIdRef
  first : Bool
  anyMarker : Bool
deriving DecidableEq, Repr

/-- The `for tag in tags` loop of `tags_to_note_reply`
(`src/util/nip10.rs` lines 183-209), with the early break once all
three slots are filled. -/
def tagsToNoteReplyLoop :
    List (List NdbStrVariant) → Nat → ReplyLoopState → ReplyLoopState
  | [], _, st => st
  | tag :: rest, index, st =>
    if st.root.isSome && st.reply.isSome && st.mention.isSome then st
    else
      match tagToNoteidRef tag index with
      | .error _ => tagsToNoteReplyLoop rest (index + 1) st
      | .ok noteRef =>
        match noteRef.marker with
        | some m =>
          let st := { st with anyMarker := true }
          let st :=
            match m with
            | .Root => { st with root := some noteRef }
            | .Reply => { st with reply := some noteRef }
            | .Mention => { st with mention := some noteRef }
          tagsToNoteReplyLoop rest (index + 1) st
        | none =>
          if !st.anyMarker && st.first then
            tagsToNoteReplyLoop rest (index + 1)
              { st with root := some noteRef, first := false }
          else if !st.anyMarker && st.reply.isNone then
            tagsToNoteReplyLoop rest (index + 1) { st with reply := some noteRef }
          else
            tagsToNoteReplyLoop rest (index + 1) st

/-- `tags_to_note_reply` (`src/util/nip10.rs` lines 175-216). -/
def tagsToNoteReply (tags : List (List NdbStrVariant)) : NoteReply :=
  let st := tagsToNoteReplyLoop tags 0 ⟨none, none, none, true, false⟩
  ⟨st.root, st.reply, st.mention⟩

/-- `NoteReply::new` (`src/util/nip10.rs` lines 130-132). -/
def NoteReply.new (tags : List (List NdbStrVariant)) : NoteReply :=
  tagsToNoteReply tags

/-- `NoteReply::is_reply_to_root` (`src/util/nip10.rs` lines 134-136). -/
def NoteReply.is_reply_to_root (r : NoteReply) : Bool :=
  r.root.isSome && r.reply.isNone

/-! ## Filters (C3, C6, C7, C8)

The filter data structure itself lives in the C library
(`bindings::ndb_filter_*`), which is not part of this repository; only
its Rust wrappers in `src/filter.rs` are.  The C side is therefore
modelled from the specification (§4.3 of the spec: a filter is an
ordered set of fields, a field groups homogeneous elements), and the
Rust wrappers are embedded from `src/filter.rs` on top of that model. -/

/-- `FieldElemType` (`src/filter.rs` lines 1059-1065). -/
inductive FieldElemType where
  | Str
  | Id
  | Int
  | Custom
deriving DecidableEq, Repr

/-- `FilterFieldType` (`src/filter.rs` lines 1047-1057), extended with
the tag character (stored alongside the field in the C struct) and with
the C-only `Custom` field type. -/
inductive FilterFieldType where
  | Ids
  | Authors
  | Kinds
  | Tags (tag : Char)
  | Since
  | Until
  | Limit
  | Search
  | Custom
deriving DecidableEq, Repr

/-- `FilterElement` (`src/filter.rs` lines 1127-1133). -/
inductive FilterElement where
  | Str (s : String)
  | Id (v : NoteId)
  | Int (n : Nat)
  | Custom
deriving DecidableEq, Repr

/-- Modelled from the spec: one started-and-ended field of a filter — a
field type together with its homogeneous element list (§4.3 "a field
groups homogeneous elements"); corresponds to the C
`ndb_filter_elements`. -/
structure FilterField where
  fieldtype : FilterFieldType
  elems : List FilterElement
deriving DecidableEq, Repr

/-- Modelled from the spec: the C `ndb_filter` value — the ordered list
of finished fields, the field currently being built (between
`start_field` and `end_field`), and the finalized flag set by
`ndb_filter_end`. -/
structure NdbFilter where
  finalized : Bool
  fields : List FilterField
  current : Option FilterField
deriving DecidableEq, Repr

/-- Modelled from the spec: the element kind a field holds, per the
§4.3 table (`ids`/`authors`: Id32; `kinds`/`since`/`until`/`limit`:
Int; `search`: Str; `tags`: Id32 or Str, so a tag field takes the kind
of its first element and is undetermined while empty); corresponds to
the C `field.elem_type` read by `FilterElements::elemtype`. -/
def FilterField.elemtype (f : FilterField) : Option FieldElemType :=
  match f.fieldtype with
  | .Ids | .Authors => some .Id
  | .Kinds | .Since | .Until | .Limit => some .Int
  | .Search => some .Str
  | .Custom => some .Custom
  | .Tags _ =>
    match f.elems with
    | [] => none
    | .Id _ :: _ => some .Id
    | .Str _ :: _ => some .Str
    | .Int _ :: _ => some .Int
    | .Custom :: _ => some .Custom

/-- `FilterElements::count` (`src/filter.rs` lines 940-942). -/
def FilterField.count (f : FilterField) : Nat :=
  f.elems.length

/-- Modelled from the spec: whether a field type holds Int elements
(§4.3 table). -/
def fieldAcceptsInt : FilterFieldType → Bool
  | .Kinds | .Since | .Until | .Limit => true
  | _ => false

/-- Modelled from the spec: whether a field type holds Str elements
(§4.3 table). -/
def fieldAcceptsStr : FilterFieldType → Bool
  | .Search | .Tags _ => true
  | _ => false

/-- Modelled from the spec: whether a field type holds Id32 elements
(§4.3 table). -/
def fieldAcceptsId : FilterFieldType → Bool
  | .Ids | .Authors | .Tags _ => true
  | _ => false

/-- Modelled from the spec: the C `ndb_filter_start_field` — fails
(returns 0) exactly on the misuse of starting a field while another is
still started (§7 "starting a field twice"). -/
def ndbFilterStartField (f : NdbFilter) (ft : FilterFieldType) : Option NdbFilter :=
  if f.current.isSome then none
  else some { f with current := some ⟨ft, []⟩ }

/-- Modelled from the spec: the C `ndb_filter_add_int_element` — fails
(returns 0) when no field is started or the started field does not hold
Int elements (§7 "adding an element of the wrong variant"). -/
def ndbFilterAddIntElement (f : NdbFilter) (n : Nat) : Option NdbFilter :=
  match f.current with
  | none => none
  | some cur =>
    if fieldAcceptsInt cur.fieldtype then
      some { f with current := some { cur with elems := cur.elems ++ [.Int n] } }
    else none

/-- Modelled from the spec: the C `ndb_filter_add_str_element`. -/
def ndbFilterAddStrElement (f : NdbFilter) (s : String) : Option NdbFilter :=
  match f.current with
  | none => none
  | some cur =>
    if fieldAcceptsStr cur.fieldtype then
      some { f with current := some { cur with elems := cur.elems ++ [.Str s] } }
    else none

/-- Modelled from the spec: the C `ndb_filter_add_id_element`. -/
def ndbFilterAddIdElement (f : NdbFilter) (v : NoteId) : Option NdbFilter :=
  match f.current with
  | none => none
  | some cur =>
    if fieldAcceptsId cur.fieldtype then
      some { f with current := some { cur with elems := cur.elems ++ [.Id v] } }
    else none

/-- Modelled from the spec: the C `ndb_filter_end_field` — moves the
field being built onto the field list. -/
def ndbFilterEndField (f : NdbFilter) : NdbFilter :=
  match f.current with
  | none => f
  | some cur => { f with fields := f.fields ++ [cur], current := none }

/-- Modelled from the spec: the C `ndb_filter_end` — finalizes the
filter. -/
def ndbFilterEnd (f : NdbFilter) : NdbFilter :=
  { f with finalized := true }

/-- `Filter::new` / `FilterBuilder::new` (`src/filter.rs` lines
168-178, 362-374): a fresh, unfinalized filter with no fields. -/
def newFilterBuilder : NdbFilter :=
  ⟨false, [], none⟩

/-- `FilterBuilder::start_field` (`src/filter.rs` lines 452-460): a
zero result from the C call becomes `FilterError::FieldAlreadyStarted`. -/
def FilterBuilder.start_field (b : NdbFilter) (ft : FilterFieldType) :
    Except Error NdbFilter :=
  match ndbFilterStartField b ft with
  | none => .error (.Filter .FieldAlreadyStarted)
  | some b2 => .ok b2

/-- `FilterBuilder::start_tags_field` (`src/filter.rs` lines 462-469):
the C `ndb_filter_start_tag_field`, modelled as starting a `Tags` field. -/
def FilterBuilder.start_tags_field (b : NdbFilter) (tag : Char) :
    Except Error NdbFilter :=
  match ndbFilterStartField b (.Tags tag) with
  | none => .error (.Filter .FieldAlreadyStarted)
  | some b2 => .ok b2

/-- `FilterBuilder::add_int_element` (`src/filter.rs` lines 392-399): a
zero result from the C call becomes `FilterError::FieldAlreadyExists`. -/
def FilterBuilder.add_int_element (b : NdbFilter) (n : Nat) :
    Except Error NdbFilter :=
  match ndbFilterAddIntElement b n with
  | none => .error (.Filter .FieldAlreadyExists)
  | some b2 => .ok b2

/-- `FilterBuilder::add_str_element` (`src/filter.rs` lines 401-410). -/
def FilterBuilder.add_str_element (b : NdbFilter) (s : String) :
    Except Error NdbFilter :=
  match ndbFilterAddStrElement b s with
  | none => .error (.Filter .FieldAlreadyExists)
  | some b2 => .ok b2

/-- `FilterBuilder::add_id_element` (`src/filter.rs` lines 441-450). -/
def FilterBuilder.add_id_element (b : NdbFilter) (v : NoteId) :
    Except Error NdbFilter :=
  match ndbFilterAddIdElement b v with
  | none => .error (.Filter .FieldAlreadyExists)
  | some b2 => .ok b2

/-- `FilterBuilder::end_field` (`src/filter.rs` lines 521-525). -/
def FilterBuilder.end_field (b : NdbFilter) : NdbFilter :=
  ndbFilterEndField b

/-- `FilterBuilder::build` (`src/filter.rs` lines 677-688). -/
def FilterBuilder.build (b : NdbFilter) : NdbFilter :=
  ndbFilterEnd b

/-- `MutFilterField` (`src/filter.rs` lines 867-871), carrying the
current value of the mutable scalar slot instead of a Rust `&mut u64`. -/
inductive MutFilterField where
  | Since (val : Nat)
  | Until (val : Nat)
  | Limit (val : Nat)
deriving DecidableEq, Repr

/-- `FilterElements::get_mut_int` (`src/filter.rs` lines 967-969): the
int read through `ndb_filter_get_int_element_ptr`. -/
def FilterField.get_mut_int (f : FilterField) (i : Nat) : Nat :=
  match f.elems.getD i (.Int 0) with
  | .Int n => n
  | _ => 0

/-- `FilterElements::field_mut` (`src/filter.rs` lines 950-965): only a
singleton Int field of type Since, Until or Limit is mutably
accessible. -/
def FilterField.field_mut (f : FilterField) : Option MutFilterField :=
  if f.count ≠ 1 then none
  else if f.elemtype ≠ some .Int then none
  else
    match f.fieldtype with
    | .Since => some (.Since (f.get_mut_int 0))
    | .Until => some (.Until (f.get_mut_int 0))
    | .Limit => some (.Limit (f.get_mut_int 0))
    | _ => none

/-- Whether `field_mut` on this field yields the `MutFilterField`
constructor matching field type `ft` — the condition under which the
`for field in self.mut_iter()` loops of `since`/`until`/`limit` stop at
this field. -/
def mutMatches (ft : FilterFieldType) (f : FilterField) : Bool :=
  match f.field_mut, ft with
  | some (.Since _), .Since => true
  | some (.Until _), .Until => true
  | some (.Limit _), .Limit => true
  | _, _ => false

/-- The write through the `&mut u64` handed out by the mutable filter
iterator: scan the field list in order (as `MutFilterIter` does,
`src/filter.rs` lines 1150-1168), overwrite the single element of the
first field whose `field_mut` matches `ft`, and report `none` when no
field matched. -/
def setFirstMut (ft : FilterFieldType) (v : Nat) :
    List FilterField → Option (List FilterField)
  | [] => none
  | f :: fs =>
    if mutMatches ft f then some ({ f with elems := [.Int v] } :: fs)
    else (setFirstMut ft v fs).map (f :: ·)

/-- Common body of `FilterBuilder::since`/`until`/`limit`
(`src/filter.rs` lines 635-675; the three methods are textually
identical up to the scalar they target): scan `mut_iter` and overwrite
in place when the scalar field exists, otherwise start the field, add
the element and end the field; the `unwrap` panics become `none`. -/
def upsertScalar (ft : FilterFieldType) (b : NdbFilter) (v : Nat) : Option NdbFilter :=
  match setFirstMut ft v b.fields with
  | some fs => some { b with fields := fs }
  | none =>
    match FilterBuilder.start_field b ft with
    | .error _ => none
    | .ok b1 =>
      match FilterBuilder.add_int_element b1 v with
      | .error _ => none
      | .ok b2 => some (FilterBuilder.end_field b2)

/-- `FilterBuilder::since` (`src/filter.rs` lines 635-647). -/
def FilterBuilder.since (b : NdbFilter) (v : Nat) : Option NdbFilter :=
  upsertScalar .Since b v

/-- `FilterBuilder::until` (`src/filter.rs` lines 649-661). -/
def FilterBuilder.until (b : NdbFilter) (v : Nat) : Option NdbFilter :=
  upsertScalar .Until b v

/-- `FilterBuilder::limit` (`src/filter.rs` lines 663-675). -/
def FilterBuilder.limit (b : NdbFilter) (v : Nat) : Option NdbFilter :=
  upsertScalar .Limit b v

/-- `FilterField::new` on a Search field returns the first Str element
(`src/filter.rs` lines 876-884). -/
def firstStrElem : List FilterElement → Option String
  | [] => none
  | .Str s :: _ => some s
  | _ :: rest => firstStrElem rest

/-- `FilterIntElements::into_iter().next()`: element 0 of an Int field
(`src/filter.rs` lines 847-853, 1189-1202). -/
def firstIntElem : List FilterElement → Option Nat
  | .Int n :: _ => some n
  | _ => none

/-- The ids yielded by `FilterIdElemIter` (`src/filter.rs` lines
1204-1217). -/
def idElems (l : List FilterElement) : List NoteId :=
  l.filterMap fun e =>
    match e with
    | .Id v => some v
    | _ => none

/-- The ints yielded by `FilterIntElemIter` (`src/filter.rs` lines
1189-1202). -/
def intElems (l : List FilterElement) : List Nat :=
  l.filterMap fun e =>
    match e with
    | .Int n => some n
    | _ => none

/-- `FilterBuilder::search` (`src/filter.rs` lines 546-551). -/
def FilterBuilder.search (b : NdbFilter) (s : String) : Option NdbFilter :=
  match FilterBuilder.start_field b .Search with
  | .error _ => none
  | .ok b1 =>
    match FilterBuilder.add_str_element b1 s with
    | .error _ => none
    | .ok b2 => some (FilterBuilder.end_field b2)

/-- `FilterBuilder::ids` (`src/filter.rs` lines 553-563). -/
def FilterBuilder.ids (b : NdbFilter) (l : List NoteId) : Option NdbFilter :=
  match FilterBuilder.start_field b .Ids with
  | .error _ => none
  | .ok b1 =>
    (l.foldlM (fun bb i => (FilterBuilder.add_id_element bb i).toOption) b1).map
      FilterBuilder.end_field

/-- `FilterBuilder::authors` (`src/filter.rs` lines 577-587). -/
def FilterBuilder.authors (b : NdbFilter) (l : List NoteId) : Option NdbFilter :=
  match FilterBuilder.start_field b .Authors with
  | .error _ => none
  | .ok b1 =>
    (l.foldlM (fun bb i => (FilterBuilder.add_id_element bb i).toOption) b1).map
      FilterBuilder.end_field

/-- `FilterBuilder::kinds` (`src/filter.rs` lines 589-599). -/
def FilterBuilder.kinds (b : NdbFilter) (l : List Nat) : Option NdbFilter :=
  match FilterBuilder.start_field b .Kinds with
  | .error _ => none
  | .ok b1 =>
    (l.foldlM (fun bb n => (FilterBuilder.add_int_element bb n).toOption) b1).map
      FilterBuilder.end_field

/-- The `FilterField::Tags` arm of `Filter::copy_from` (`src/filter.rs`
lines 195-208): start the tag field, re-add each element by variant
(`Custom` elements hit a `todo!`, embedded as `none`), end the field. -/
def copyTagsField (b : NdbFilter) (c : Char) (elems : List FilterElement) :
    Option NdbFilter :=
  match FilterBuilder.start_tags_field b c with
  | .error _ => none
  | .ok b1 =>
    (elems.foldlM (fun bb (e : FilterElement) =>
      match e with
      | .Id v => (FilterBuilder.add_id_element bb v).toOption
      | .Str s => (FilterBuilder.add_str_element bb s).toOption
      | .Int n => (FilterBuilder.add_int_element bb n).toOption
      | .Custom => none) b1).map FilterBuilder.end_field

/-- One iteration of `Filter::copy_from` (`src/filter.rs` lines
180-215): rebuild one field through the builder interface. -/
def copyField (b : NdbFilter) (fld : FilterField) : Option NdbFilter :=
  match fld.fieldtype with
  | .Search => (firstStrElem fld.elems).bind fun s => FilterBuilder.search b s
  | .Ids => FilterBuilder.ids b (idElems fld.elems)
  | .Authors => FilterBuilder.authors b (idElems fld.elems)
  | .Kinds => FilterBuilder.kinds b (intElems fld.elems)
  | .Tags c => copyTagsField b c fld.elems
  | .Since => (firstIntElem fld.elems).bind fun n => FilterBuilder.since b n
  | .Until => (firstIntElem fld.elems).bind fun n => FilterBuilder.until b n
  | .Limit => (firstIntElem fld.elems).bind fun n => FilterBuilder.limit b n
  | .Custom => none

/-- `Filter::copy_from` (`src/filter.rs` lines 180-215). -/
def Filter.copy_from (f : NdbFilter) : Option NdbFilter :=
  f.fields.foldlM copyField newFilterBuilder

/-- `Filter::since_mut` (`src/filter.rs` lines 317-326): overwrite the
existing Since scalar through the mutable iterator, else rebuild the
filter with the field appended. -/
def Filter.since_mut (f : NdbFilter) (v : Nat) : Option NdbFilter :=
  match setFirstMut .Since v f.fields with
  | some fs => some { f with fields := fs }
  | none =>
    (Filter.copy_from f).bind fun b =>
      (FilterBuilder.since b v).map FilterBuilder.build

/-- `Filter::until_mut` (`src/filter.rs` lines 276-285). -/
def Filter.until_mut (f : NdbFilter) (v : Nat) : Option NdbFilter :=
  match setFirstMut .Until v f.fields with
  | some fs => some { f with fields := fs }
  | none =>
    (Filter.copy_from f).bind fun b =>
      (FilterBuilder.until b v).map FilterBuilder.build

/-- `Filter::limit_mut` (`src/filter.rs` lines 265-274). -/
def Filter.limit_mut (f : NdbFilter) (v : Nat) : Option NdbFilter :=
  match setFirstMut .Limit v f.fields with
  | some fs => some { f with fields := fs }
  | none =>
    (Filter.copy_from f).bind fun b =>
      (FilterBuilder.limit b v).map FilterBuilder.build

/-! ## JSON codec for filters (C7)

`Filter::json` and `Filter::from_json` (`src/filter.rs` lines 217-244
and 336-359) delegate entirely to the C functions `ndb_filter_json` and
`ndb_filter_from_json`, which are not part of this repository.
Modelled from the spec: filters are serializable to and from JSON
(§4.3), with the standard wire form `{"ids": [hex32...], "authors":
[hex32...], "kinds": [int...], "#c": [str...], "since": int, "until":
int, "limit": int, "search": str}` (§6).  JSON text is abstracted to a
JSON value tree; 32-byte ids appear as 64-character lowercase hex
strings, and a tag-array string that is such a hex string is read back
as a binary id (§4.1: elements that look like 64-hex ids are accepted
either as hex string or as binary id; canonical form uses binary). -/

/-- Lowercase hex digit of a value below 16, computed from the
character codes. -/
def hexDigit (n : Nat) : Char :=
  if n < 10 then Char.ofNat (Char.toNat '0' + n)
  else Char.ofNat (Char.toNat 'a' + (n - 10))

/-- Numeric value of a lowercase hex digit, from its character code. -/
def hexVal (c : Char) : Option Nat :=
  if '0' ≤ c ∧ c ≤ '9' then some (c.toNat - Char.toNat '0')
  else if 'a' ≤ c ∧ c ≤ 'f' then some (c.toNat - Char.toNat 'a' + 10)
  else none

/-- Two hex digits of one byte. -/
def byteToHex (b : Nat) : List Char :=
  [hexDigit (b / 16), hexDigit (b % 16)]

/-- Hex string of a byte list. -/
def bytesToHex (bs : List Nat) : String :=
  String.mk (bs.flatMap byteToHex)

/-- Parse a hex character list into bytes; fails on odd length or a
non-hex character. -/
def hexToBytes : List Char → Option (List Nat)
  | [] => some []
  | [_] => none
  | c1 :: c2 :: rest =>
    match hexVal c1, hexVal c2 with
    | some hi, some lo => (hexToBytes rest).map fun bs => (hi * 16 + lo) :: bs
    | _, _ => none

/-- A JSON value (the standard subset the filter wire form uses). -/
inductive Json where
  | str (s : String)
  | num (n : Nat)
  | arr (elements : List Json)
  | obj (members : List (String × Json))
deriving Repr

/-- Modelled from the spec: the JSON object key of each field type
(§6 wire form); the C-only Custom fields have no JSON form. -/
def fieldKey : FilterFieldType → Option String
  | .Ids => some "ids"
  | .Authors => some "authors"
  | .Kinds => some "kinds"
  | .Tags c => some (String.mk ['#', c])
  | .Since => some "since"
  | .Until => some "until"
  | .Limit => some "limit"
  | .Search => some "search"
  | .Custom => none

/-- Modelled from the spec: the JSON form of one element — ids as
64-hex strings, strings as strings, ints as numbers. -/
def elemToJson : FilterElement → Option Json
  | .Id v => some (.str (bytesToHex v))
  | .Str s => some (.str s)
  | .Int n => some (.num n)
  | .Custom => none

/-- Modelled from the spec: the JSON member of one field — scalar
fields serialize their single value bare, other fields serialize their
element array. -/
def fieldToJson (f : FilterField) : Option (String × Json) :=
  (fieldKey f.fieldtype).bind fun k =>
    match f.fieldtype with
    | .Since | .Until | .Limit => (firstIntElem f.elems).map fun n => (k, .num n)
    | .Search => (firstStrElem f.elems).map fun s => (k, .str s)
    | _ => (f.elems.mapM elemToJson).map fun js => (k, .arr js)

/-- Modelled from the spec: `ndb_filter_json` behind `Filter::json`,
at the JSON-tree level. -/
def filterToJson (f : NdbFilter) : Option Json :=
  (f.fields.mapM fieldToJson).map Json.obj

/-- Modelled from the spec: recognized JSON object keys. -/
def parseKey (k : String) : Option FilterFieldType :=
  if k = "ids" then some .Ids
  else if k = "authors" then some .Authors
  else if k = "kinds" then some .Kinds
  else if k = "since" then some .Since
  else if k = "until" then some .Until
  else if k = "limit" then some .Limit
  else if k = "search" then some .Search
  else
    match k.data with
    | ['#', c] => some (.Tags c)
    | _ => none

/-- Modelled from the spec: a 64-character hex string parses to a
32-byte id. -/
def parseIdStr (s : String) : Option NoteId :=
  if s.length = 64 then hexToBytes s.data else none

/-- Modelled from the spec: parse the JSON value of one field. -/
def parseFieldValue : FilterFieldType → Json → Option FilterField
  | .Ids, .arr xs =>
    (xs.mapM fun (j : Json) =>
      match j with
      | .str s => (parseIdStr s).map FilterElement.Id
      | _ => none).map fun es => (⟨.Ids, es⟩ : FilterField)
  | .Authors, .arr xs =>
    (xs.mapM fun (j : Json) =>
      match j with
      | .str s => (parseIdStr s).map FilterElement.Id
      | _ => none).map fun es => (⟨.Authors, es⟩ : FilterField)
  | .Kinds, .arr xs =>
    (xs.mapM fun (j : Json) =>
      match j with
      | .num n => some (FilterElement.Int n)
      | _ => none).map fun es => (⟨.Kinds, es⟩ : FilterField)
  | .Tags c, .arr xs =>
    (xs.mapM fun (j : Json) =>
      match j with
      | .str s =>
        some (match parseIdStr s with
              | some v => FilterElement.Id v
              | none => FilterElement.Str s)
      | _ => none).map fun es => (⟨.Tags c, es⟩ : FilterField)
  | .Since, .num n => some ⟨.Since, [.Int n]⟩
  | .Until, .num n => some ⟨.Until, [.Int n]⟩
  | .Limit, .num n => some ⟨.Limit, [.Int n]⟩
  | .Search, .str s => some ⟨.Search, [.Str s]⟩
  | _, _ => none

/-- Modelled from the spec: `ndb_filter_from_json` behind
`Filter::from_json`, at the JSON-tree level; the result is a finalized
filter. -/
def filterFromJson : Json → Option NdbFilter
  | .obj kvs =>
    (kvs.mapM fun kv => (parseKey kv.1).bind fun ft => parseFieldValue ft kv.2).map
      fun fs => (⟨true, fs, none⟩ : NdbFilter)
  | _ => none

/-- A 32-byte id with byte values. -/
def validId (v : NoteId) : Bool :=
  v.length == 32 && v.all (· < 256)

/-- A string indistinguishable from a serialized 32-byte id. -/
def hexLike (s : String) : Bool :=
  s.length == 64 && (hexToBytes s.data).isSome

/-- A field as produced by the builder methods `ids`, `authors`,
`kinds`, `tags`, `since`, `until`, `limit`, `search`: elements of the
field's kind, ids of 32 bytes, scalar fields singletons, and no string
tag element that collides with the hex form of an id. -/
def wfField (f : FilterField) : Bool :=
  match f.fieldtype with
  | .Ids =>
    f.elems.all fun e =>
      match e with
      | .Id v => validId v
      | _ => false
  | .Authors =>
    f.elems.all fun e =>
      match e with
      | .Id v => validId v
      | _ => false
  | .Kinds =>
    f.elems.all fun e =>
      match e with
      | .Int _ => true
      | _ => false
  | .Tags _ =>
    f.elems.all fun e =>
      match e with
      | .Id v => validId v
      | .Str s => !hexLike s
      | _ => false
  | .Since | .Until | .Limit =>
    match f.elems with
    | [.Int _] => true
    | _ => false
  | .Search =>
    match f.elems with
    | [.Str _] => true
    | _ => false
  | .Custom => false

/-- A built filter whose fields all come from the builder methods the
round-trip claim lists. -/
def wfFilter (f : NdbFilter) : Bool :=
  f.finalized && f.current.isNone && f.fields.all wfField

/-! ## Subscription streams (C4, C5)

The Rust side keeps a `SubMap = HashMap<Subscription, SubscriptionState>`
behind a mutex (`src/ndb.rs` lines 44-53); it is embedded as an
association list from subscription ids to states.  Wakers are abstract
tokens (`Nat`).  The C engine's own set of active subscriptions is not
part of this repository and is modelled from the spec as the list of
live subscription ids. -/

/-- `SubscriptionState` (`src/future.rs` lines 12-17). -/
structure SubscriptionState where
  ready : Bool
  done : Bool
  waker : Option Nat
deriving DecidableEq, Repr

/-- The subscription map `SubMap` (`src/ndb.rs` line 44). -/
abbrev SubMap := List (Nat × SubscriptionState)

/-- `HashMap` lookup on the embedded map. -/
def subLookup : SubMap → Nat → Option SubscriptionState
  | [], _ => none
  | (k, st) :: rest, s => if k = s then some st else subLookup rest s

/-- `HashMap::remove` on the embedded map. -/
def subRemove : SubMap → Nat → SubMap
  | [], _ => []
  | (k, st) :: rest, s =>
    if k = s then subRemove rest s else (k, st) :: subRemove rest s

/-- Overwrite the state stored under `s` (no-op when absent). -/
def subSet : SubMap → Nat → SubscriptionState → SubMap
  | [], _, _ => []
  | (k, st) :: rest, s, v =>
    (if k = s then (k, v) else (k, st)) :: subSet rest s v

/-- The `Entry::Occupied` update of `Ndb::unsubscribe` (`src/ndb.rs`
lines 209-214): set `done` when the subscription has an entry, do
nothing otherwise. -/
def markDone : SubMap → Nat → SubMap
  | [], _ => []
  | (k, st) :: rest, s =>
    (if k = s then (k, { st with done := true }) else (k, st)) :: markDone rest s

/-- The owned state the claims need: the Rust-side subscription map and
the C engine's set of active subscription ids. -/
structure NdbState where
  subs : SubMap
  dbSubs : List Nat
deriving DecidableEq, Repr

/-- Modelled from the spec: the C `ndb_unsubscribe` removes the
subscription from the engine (§4.7: `unsubscribe` cancels the
subscription; the stream terminates only when it is called). -/
def cNdbUnsubscribe (db : List Nat) (s : Nat) : List Nat :=
  db.filter fun x => x ≠ s

/-- `Ndb::unsubscribe` (`src/ndb.rs` lines 199-221): call the C
`ndb_unsubscribe`, then mark the subscription done in the stream map if
it has an entry. -/
def Ndb.unsubscribe (st : NdbState) (s : Nat) : NdbState :=
  { st with
    dbSubs := cNdbUnsubscribe st.dbSubs s
    subs := markDone st.subs s }

/-- `SubscriptionStream` (`src/future.rs` lines 21-28). -/
structure SubscriptionStream where
  sub_id : Nat
  max_notes : Nat
  unsubscribe_on_drop : Bool
deriving DecidableEq, Repr

/-- `Drop for SubscriptionStream` (`src/future.rs` lines 61-76):
remove the map entry, then `Ndb::unsubscribe`; the
`unsubscribe_on_drop` flag is not consulted. -/
def SubscriptionStream.drop (strm : SubscriptionStream) (st : NdbState) : NdbState :=
  let st1 := { st with subs := subRemove st.subs strm.sub_id }
  Ndb.unsubscribe st1 strm.sub_id

/-- The result of `Stream::poll_next`. -/
inductive PollRes where
  | readyNone
  | readySome (notes : List Nat)
  | pending
deriving DecidableEq, Repr

/-- `SubscriptionStream::poll_next` (`src/future.rs` lines 81-106):
look up or insert a fresh state; closed streams resolve `Ready(None)`;
ready streams reset `ready` and yield the notes `poll_for_notes` (C)
returns, passed in as `fetched`; otherwise the waker `wk` is stored and
the poll is pending. -/
def pollNext (st : NdbState) (s : Nat) (wk : Nat) (fetched : List Nat) :
    NdbState × PollRes :=
  let cur := (subLookup st.subs s).getD ⟨false, false, none⟩
  let m0 := if (subLookup st.subs s).isSome then st.subs else st.subs ++ [(s, cur)]
  if cur.done then
    ({ st with subs := m0 }, .readyNone)
  else if cur.ready then
    ({ st with subs := subSet m0 s { cur with ready := false } }, .readySome fetched)
  else
    ({ st with subs := subSet m0 s { cur with waker := some wk } }, .pending)

/-- The results of `n` consecutive polls of the stream for `s`. -/
def pollResults (st : NdbState) (s : Nat) (wk : Nat) (fetched : List Nat) :
    Nat → List PollRes
  | 0 => []
  | n + 1 =>
    match pollNext st s wk fetched with
    | (st2, r) => r :: pollResults st2 s wk fetched n

/-- The subscription callback that `Ndb::new` registers (`src/ndb.rs`
lines 81-94): look up the subscription's state in the map and, when a
waker is stored, take it and fire it.  Returns the map with the waker
taken, and the waker that fired, if any. -/
def subCallback (m : SubMap) (s : Nat) : SubMap × Option Nat :=
  match subLookup m s with
  | none => (m, none)
  | some stt => (subSet m s { stt with waker := none }, stt.waker)

/-- Modelled from the spec: the engine's notify path after a committed
batch (§4.7) — the registered callback, the only place a stored waker
is fired, is invoked only for a subscription in the engine's active
set, so a subscription that `ndb_unsubscribe` removed is never called
back.  Returns the new state and the waker that fired, if any. -/
def engineNotify (st : NdbState) (s : Nat) : NdbState × Option Nat :=
  if s ∈ st.dbSubs then
    match subCallback st.subs s with
    | (m2, fired) => ({ st with subs := m2 }, fired)
  else
    (st, none)

/-- "The element can be added": `ndb_filter_add_int_element` succeeds —
a field is started and it holds Int elements. -/
def canAddInt (b : NdbFilter) : Bool :=
  match b.current with
  | some cur => fieldAcceptsInt cur.fieldtype
  | none => false

/-- "The element can be added": `ndb_filter_add_str_element` succeeds. -/
def canAddStr (b : NdbFilter) : Bool :=
  match b.current with
  | some cur => fieldAcceptsStr cur.fieldtype
  | none => false

/-- "The element can be added": `ndb_filter_add_id_element` succeeds. -/
def canAddId (b : NdbFilter) : Bool :=
  match b.current with
  | some cur => fieldAcceptsId cur.fieldtype
  | none => false

/-- Placeholder field used as the default of positional `getD` reads in
theorem statements. -/
def dfltField : FilterField :=
  ⟨.Since, []⟩

/-- The field table after the write through the mutable iterator: field
`i` keeps its field type and its element list becomes the single
element `Int v`; all other positions are untouched. -/
def overwriteAt (fields : List FilterField) (i : Nat) (v : Nat) : List FilterField :=
  fields.set i { fields.getD i dfltField with elems := [.Int v] }

theorem start_field_error_iff (b : NdbFilter) (ft : FilterFieldType) :
    (FilterBuilder.start_field b ft = .error (.Filter .FieldAlreadyStarted) ↔
      b.current.isSome = true)
    ∧ (b.current.isSome = false → ∃ b2, FilterBuilder.start_field b ft = .ok b2) := by
  cases hc : b.current <;>
    simp [FilterBuilder.start_field, ndbFilterStartField, hc]

/-- C8: filter building fails precisely with the `FilterError`
indicating the misuse: `start_field` and `start_tags_field` return
`Err(Filter(FieldAlreadyStarted))` exactly when a field is already
started (the underlying field cannot be started), `add_int_element`,
`add_str_element` and `add_id_element` return
`Err(Filter(FieldAlreadyExists))` exactly when no started field can
take the element, and in all other cases these methods return `Ok`. -/
theorem filter_build_error_precision :
    (∀ (b : NdbFilter) (ft : FilterFieldType),
      (FilterBuilder.start_field b ft = .error (.Filter .FieldAlreadyStarted) ↔
        b.current.isSome = true)
      ∧ (b.current.isSome = false → ∃ b2, FilterBuilder.start_field b ft = .ok b2))
    ∧ (∀ (b : NdbFilter) (c : Char),
      (FilterBuilder.start_tags_field b c = .error (.Filter .FieldAlreadyStarted) ↔
        b.current.isSome = true)
      ∧ (b.current.isSome = false → ∃ b2, FilterBuilder.start_tags_field b c = .ok b2))
    ∧ (∀ (b : NdbFilter) (n : Nat),
      (FilterBuilder.add_int_element b n = .error (.Filter .FieldAlreadyExists) ↔
        canAddInt b = false)
      ∧ (canAddInt b = true → ∃ b2, FilterBuilder.add_int_element b n = .ok b2))
    ∧ (∀ (b : NdbFilter) (t : String),
      (FilterBuilder.add_str_element b t = .error (.Filter .FieldAlreadyExists) ↔
        canAddStr b = false)
      ∧ (canAddStr b = true → ∃ b2, FilterBuilder.add_str_element b t = .ok b2))
    ∧ (∀ (b : NdbFilter) (v : NoteId),
      (FilterBuilder.add_id_element b v = .error (.Filter .FieldAlreadyExists) ↔
        canAddId b = false)
      ∧ (canAddId b = true → ∃ b2, FilterBuilder.add_id_element b v = .ok b2)) := by
  refine ⟨start_field_error_iff, ?_, ?_, ?_, ?_⟩
  · intro b c
    cases hc : b.current <;>
      simp [FilterBuilder.start_tags_field, ndbFilterStartField, hc]
  · intro b n
    cases hc : b.current with
    | none => simp [FilterBuilder.add_int_element, ndbFilterAddIntElement, canAddInt, hc]
    | some cur =>
      cases ha : fieldAcceptsInt cur.fieldtype <;>
        simp [FilterBuilder.add_int_element, ndbFilterAddIntElement, canAddInt, hc, ha]
  · intro b t
    cases hc : b.current with
    | none => simp [FilterBuilder.add_str_element, ndbFilterAddStrElement, canAddStr, hc]
    | some cur =>
      cases ha : fieldAcceptsStr cur.fieldtype <;>
        simp [FilterBuilder.add_str_element, ndbFilterAddStrElement, canAddStr, hc, ha]
  · intro b v
    cases hc : b.current with
    | none => simp [FilterBuilder.add_id_element, ndbFilterAddIdElement, canAddId, hc]
    | some cur =>
      cases ha : fieldAcceptsId cur.fieldtype <;>
        simp [FilterBuilder.add_id_element, ndbFilterAddIdElement, canAddId, hc, ha]

/-- Witness for C8: on a fresh builder, starting a since field
succeeds; after starting it, starting another field fails with
`FieldAlreadyStarted`, and adding a str element to the int-only since
field fails with `FieldAlreadyExists`. -/
theorem filter_build_error_precision_witness :
    (∃ b2, FilterBuilder.start_field newFilterBuilder .Since = .ok b2)
    ∧ (FilterBuilder.start_field ⟨false, [], some ⟨.Since, []⟩⟩ .Until =
        .error (.Filter .FieldAlreadyStarted))
    ∧ (FilterBuilder.add_str_element ⟨false, [], some ⟨.Since, []⟩⟩ "x" =
        .error (.Filter .FieldAlreadyExists)) := by
  refine ⟨(filter_build_error_precision.1 newFilterBuilder .Since).2 rfl, ?_, ?_⟩
  · exact (filter_build_error_precision.1 ⟨false, [], some ⟨.Since, []⟩⟩ .Until).1.mpr rfl
  · exact (filter_build_error_precision.2.2.2.1 ⟨false, [], some ⟨.Since, []⟩⟩ "x").1.mpr rfl

end Nostrdb

namespace Nostrdb

/-! # Theorems -/

theorem ndbInitLoop_eq_find (init : Nat → Bool) (mapsize : Nat) :
    ndbInitLoop init mapsize = (mapsizeAttempts mapsize).find? init := by
  induction mapsize using Nat.strong_induction_on with
  | _ m ih =>
    rw [ndbInitLoop, mapsizeAttempts]
    cases hm : init m with
    | true =>
      rw [if_pos rfl, List.find?_cons_of_pos _ hm]
    | false =>
      rw [if_neg (by simp), List.find?_cons_of_neg _ (by simp [hm])]
      by_cases h : minMapsize < m / 2
      · rw [if_pos h, if_pos h]
        exact ih (m / 2) (by simp only [minMapsize] at h; omega)
      · rw [if_neg h, if_neg h]
        rfl

theorem searchProfileLoop_length_le {α : Type} (xs : List α) (n : Nat) :
    (searchProfileLoop xs n).length ≤ n := by
  induction xs generalizing n with
  | nil => cases n <;> simp [searchProfileLoop]
  | cons x xs ih =>
    cases n with
    | zero => simp [searchProfileLoop]
    | succ n => simpa [searchProfileLoop, Nat.succ_le_succ_iff] using ih n

theorem mapsizeAttempts_drop_one_gt (mapsize : Nat) :
    ∀ m ∈ (mapsizeAttempts mapsize).drop 1, minMapsize < m := by
  have key : ∀ m, minMapsize < m → ∀ x ∈ mapsizeAttempts m, minMapsize < x := by
    intro m
    induction m using Nat.strong_induction_on with
    | _ m ih =>
      intro hm x hx
      rw [mapsizeAttempts] at hx
      rcases List.mem_cons.mp hx with h | h
      · exact h ▸ hm
      · by_cases hc : minMapsize < m / 2
        · rw [if_pos hc] at h
          exact ih (m / 2) (by simp only [minMapsize] at hc ⊢; omega) hc x h
        · rw [if_neg hc] at h
          simp at h
  intro x hx
  rw [mapsizeAttempts] at hx
  by_cases hc : minMapsize < mapsize / 2
  · rw [if_pos hc] at hx
    exact key (mapsize / 2) hc x (by simpa using hx)
  · rw [if_neg hc] at hx
    simp at hx

/-- C1: if store initialization in `Ndb::new` fails, the configured
mapsize is halved and retried down to the 512 MiB floor (every retried
mapsize is strictly above `minMapsize`); `Ndb::new` returns
`Err(DbOpenFailed)` exactly when every attempted mapsize failed, and
returns `Ok` exactly on the first attempt that succeeds. -/
theorem ndb_new_halves_mapsize_to_floor (init : Nat → Bool) (mapsize : Nat) :
    (ndbNew init mapsize = .error .DbOpenFailed ↔
      ∀ m ∈ mapsizeAttempts mapsize, init m = false)
    ∧ (∀ k, ndbNew init mapsize = .ok k ↔
        (mapsizeAttempts mapsize).find? init = some k)
    ∧ (∀ m ∈ (mapsizeAttempts mapsize).drop 1, minMapsize < m) := by
  refine ⟨?_, ?_, mapsizeAttempts_drop_one_gt mapsize⟩
  · rw [ndbNew, ndbInitLoop_eq_find]
    cases hf : (mapsizeAttempts mapsize).find? init with
    | none =>
      simp only [true_iff]
      intro m hm
      have := List.find?_eq_none.mp hf m hm
      simpa using this
    | some k =>
      simp only [reduceCtorEq, false_iff]
      intro hall
      have := List.find?_some hf
      have hk : k ∈ mapsizeAttempts mapsize := List.mem_of_find?_eq_some hf
      rw [hall k hk] at this
      cases this
  · intro k
    rw [ndbNew, ndbInitLoop_eq_find]
    cases hf : (mapsizeAttempts mapsize).find? init with
    | none => simp
    | some m => simp

/-- Witness for C1 at concrete inputs: with an oracle that accepts only
1 GiB, a configured mapsize of 4 GiB succeeds after two halvings; with
an oracle that always fails, the open fails. -/
theorem ndb_new_halves_mapsize_to_floor_witness :
    ndbNew (fun m => m == 1024 * 1024 * 1024) (1024 * 1024 * 1024 * 4) =
      .ok (1024 * 1024 * 1024)
    ∧ ndbNew (fun _ => false) (1024 * 1024 * 1024) = .error .DbOpenFailed := by
  constructor
  · exact ((ndb_new_halves_mapsize_to_floor (fun m => m == 1024 * 1024 * 1024)
      (1024 * 1024 * 1024 * 4)).2.1 (1024 * 1024 * 1024)).mpr (by
        rw [mapsizeAttempts, mapsizeAttempts, mapsizeAttempts]
        norm_num [minMapsize, List.find?]
        decide)
  · exact (ndb_new_halves_mapsize_to_floor (fun _ => false)
      (1024 * 1024 * 1024)).1.mpr (by
        rw [mapsizeAttempts, mapsizeAttempts]
        norm_num [minMapsize])

/-- C9 (counterexample): with a cursor that yields two profile keys and
`limit = 1`, `Ndb::search_profile` returns two pubkeys, so the result
is not bounded by the limit. -/
theorem search_profile_exceeds_limit :
    ¬ (searchProfile [0, 1] 1).length ≤ 1 := by
  decide

/-- C9 (amended): `Ndb::search_profile` returns at most `limit + 1`
profile pubkeys — the unconditional first hit plus up to `limit` more
from the loop. -/
theorem search_profile_length_le_limit_succ {α : Type}
    (found : List α) (limit : Nat) :
    (searchProfile found limit).length ≤ limit + 1 := by
  cases found with
  | nil => simp [searchProfile]
  | cons first rest =>
    simpa [searchProfile, Nat.succ_le_succ_iff]
      using searchProfileLoop_length_le rest limit

/-- C10: on a metadata blob whose `count()` is `0`, `entry_at(0)` does
not return `None`: the `u16` guard `index > count - 1` wraps to
`0 > 65535`, so the code goes on to read an entry out of bounds
(in a build with overflow checks the subtraction panics instead). -/
theorem entry_at_count_zero_reads :
    NoteMeta.entry_at ⟨0, [7]⟩ 0 = some 7 ∧
    NoteMeta.entry_at ⟨0, [7]⟩ 0 ≠ none := by
  decide

/-- C2: on tags `[["e", root_id, "", "root"], ["e", reply_id, "",
"reply"]]`, `NoteReply::new` yields a root reference with id `root_id`
and a reply reference with id `reply_id`, and `is_reply_to_root()` is
`false`. -/
theorem note_reply_root_and_reply_markers (rootId replyId : NoteId) :
    (NoteReply.new
      [[.str "e", .id rootId, .str "", .str "root"],
       [.str "e", .id replyId, .str "", .str "reply"]]).root.map NoteIdRef.id
        = some rootId
    ∧ (NoteReply.new
      [[.str "e", .id rootId, .str "", .str "root"],
       [.str "e", .id replyId, .str "", .str "reply"]]).reply.map NoteIdRef.id
        = some replyId
    ∧ (NoteReply.new
      [[.str "e", .id rootId, .str "", .str "root"],
       [.str "e", .id replyId, .str "", .str "reply"]]).is_reply_to_root
        = false := by
  refine ⟨rfl, rfl, rfl⟩



theorem subLookup_markDone (m : SubMap) (s : Nat) :
    subLookup (markDone m s) s =
      (subLookup m s).map fun st => { st with done := true } := by
  induction m with
  | nil => rfl
  | cons kv rest ih =>
    obtain ⟨k, stv⟩ := kv
    rw [markDone]
    by_cases h : k = s
    · subst h
      rw [if_pos rfl, subLookup, if_pos rfl, subLookup, if_pos rfl]
      rfl
    · rw [if_neg h, subLookup, if_neg h, subLookup, if_neg h]
      exact ih

theorem subLookup_subRemove (m : SubMap) (s : Nat) :
    subLookup (subRemove m s) s = none := by
  induction m with
  | nil => rfl
  | cons kv rest ih =>
    obtain ⟨k, stv⟩ := kv
    rw [subRemove]
    by_cases h : k = s
    · rw [if_pos h]
      exact ih
    · rw [if_neg h, subLookup, if_neg h]
      exact ih

theorem pollNext_of_done (st : NdbState) (s wk : Nat) (fetched : List Nat)
    (stt : SubscriptionState) (h : subLookup st.subs s = some stt)
    (hd : stt.done = true) :
    pollNext st s wk fetched = (st, .readyNone) := by
  simp [pollNext, h, hd]

/-- C4 (amended): if the subscription `s` has an entry in the stream
map when `Ndb::unsubscribe(s)` runs — that is, some stream for `s` has
been polled at least once — then every subsequent poll of any
`SubscriptionStream` for `s` resolves `Ready(None)` (the stream is
closed) and leaves the state unchanged; and no waker stored for a
subscription is invoked after the subscription is marked done:
`Ndb::unsubscribe` removes the subscription from the engine's active
set before marking it done, so the engine's notify path — the only
place the waker-firing callback of `Ndb::new` runs — fires no waker
for it afterwards, for every state and subscription. -/
theorem unsubscribe_closes_polled_streams (st : NdbState) (s wk : Nat)
    (fetched : List Nat) (h : (subLookup st.subs s).isSome = true) :
    pollNext (Ndb.unsubscribe st s) s wk fetched = (Ndb.unsubscribe st s, .readyNone)
    ∧ (∀ n, ∀ r ∈ pollResults (Ndb.unsubscribe st s) s wk fetched n, r = .readyNone)
    ∧ (∀ (st2 : NdbState) (s2 : Nat),
        (engineNotify (Ndb.unsubscribe st2 s2) s2).2 = none) := by
  obtain ⟨stt, hstt⟩ := Option.isSome_iff_exists.mp h
  have hlook : subLookup (Ndb.unsubscribe st s).subs s = some { stt with done := true } := by
    simp [Ndb.unsubscribe, subLookup_markDone, hstt]
  have hpoll := pollNext_of_done (Ndb.unsubscribe st s) s wk fetched _ hlook rfl
  refine ⟨hpoll, ?_, ?_⟩
  · intro n
    induction n with
    | zero => simp [pollResults]
    | succ n ih =>
      intro r hr
      rw [pollResults, hpoll] at hr
      rcases List.mem_cons.mp hr with h1 | h1
      · exact h1
      · exact ih r h1
  · intro st2 s2
    have hnm : s2 ∉ (Ndb.unsubscribe st2 s2).dbSubs := by
      intro hmem
      simp [Ndb.unsubscribe, cNdbUnsubscribe, List.mem_filter] at hmem
    rw [engineNotify, if_neg hnm]

/-- Witness for C4 (amended) at a concrete state: a map holding an
entry for subscription `3`. -/
theorem unsubscribe_closes_polled_streams_witness :
    pollNext (Ndb.unsubscribe ⟨[(3, ⟨false, false, none⟩)], [3]⟩ 3) 3 0 [] =
      (Ndb.unsubscribe ⟨[(3, ⟨false, false, none⟩)], [3]⟩ 3, .readyNone) :=
  (unsubscribe_closes_polled_streams ⟨[(3, ⟨false, false, none⟩)], [3]⟩ 3 0 []
    (by decide)).1

/-- C4 (counterexample): for a stream that was never polled before
`unsubscribe`, the map holds no entry, `unsubscribe` marks nothing, and
the next poll is `Pending` — not `Ready(None)`, so the stream is not
closed. -/
theorem unsubscribe_unpolled_stream_not_closed :
    (pollNext (Ndb.unsubscribe ⟨[], [7]⟩ 7) 7 0 []).2 = .pending
    ∧ ¬ (pollNext (Ndb.unsubscribe ⟨[], [7]⟩ 7) 7 0 []).2 = .readyNone := by
  decide

/-- C5: dropping a `SubscriptionStream` removes its subscription's
entry from the map and unsubscribes the subscription from the database
engine, and the result does not depend on the `unsubscribe_on_drop`
setting (the `Drop` impl never consults it). -/
theorem stream_drop_removes_and_unsubscribes
    (strm : SubscriptionStream) (st : NdbState) :
    subLookup (strm.drop st).subs strm.sub_id = none
    ∧ strm.sub_id ∉ (strm.drop st).dbSubs
    ∧ ∀ flag,
        SubscriptionStream.drop ⟨strm.sub_id, strm.max_notes, flag⟩ st = strm.drop st := by
  refine ⟨?_, ?_, ?_⟩
  · show subLookup (markDone (subRemove st.subs strm.sub_id) strm.sub_id) strm.sub_id = none
    rw [subLookup_markDone, subLookup_subRemove]
    rfl
  · show strm.sub_id ∉ cNdbUnsubscribe st.dbSubs strm.sub_id
    intro hmem
    have := (List.mem_filter.mp hmem).2
    simp at this
  · intro flag
    rfl

theorem setFirstMut_of_mem (ft : FilterFieldType) (v : Nat) :
    ∀ (fields : List FilterField),
      (∃ fld ∈ fields, mutMatches ft fld = true) →
      ∃ i, i < fields.length ∧
        mutMatches ft (fields.getD i dfltField) = true ∧
        (∀ j, j < i → mutMatches ft (fields.getD j dfltField) = false) ∧
        setFirstMut ft v fields = some (overwriteAt fields i v) := by
  intro fields
  induction fields with
  | nil =>
    rintro ⟨fld, hmem, _⟩
    cases hmem
  | cons f fs ih =>
    intro h
    by_cases hm : mutMatches ft f = true
    · refine ⟨0, by simp, by simpa using hm, by omega, ?_⟩
      rw [setFirstMut, if_pos hm]
      simp [overwriteAt]
    · have h2 : ∃ fld ∈ fs, mutMatches ft fld = true := by
        obtain ⟨fld, hmem, hfl⟩ := h
        rcases List.mem_cons.mp hmem with hh | hmem2
        · exact absurd (hh ▸ hfl) hm
        · exact ⟨fld, hmem2, hfl⟩
      obtain ⟨i, hi, hmi, hjs, hset⟩ := ih h2
      refine ⟨i + 1, by simpa using hi, by simpa using hmi, ?_, ?_⟩
      · intro j hj
        cases j with
        | zero =>
          simpa using Bool.not_eq_true _ |>.mp hm
        | succ j =>
          rw [List.getD_cons_succ]
          exact hjs j (by omega)
      · rw [setFirstMut, if_neg hm, hset]
        simp [overwriteAt]

/-- C3: each scalar field type appears at most once: on a builder or
built filter that already contains a Since, Until or Limit field,
`since(v)`/`until(v)`/`limit(v)` (via `upsertScalar`, their shared
body) and `since_mut`/`until_mut`/`limit_mut` overwrite the single
existing element in place (`overwriteAt`: a positional `set` of the one
field, so the field count is unchanged) rather than adding a second
field; in particular `Filter::new().since(a).since(c).build()` contains
exactly one Since field and it holds `c`. -/
theorem filter_scalar_field_overwritten :
    (∀ (ft : FilterFieldType), ft = .Since ∨ ft = .Until ∨ ft = .Limit →
      ∀ (b : NdbFilter) (v : Nat),
        (∃ fld ∈ b.fields, mutMatches ft fld = true) →
        ∃ i, i < b.fields.length ∧
          upsertScalar ft b v = some { b with fields := overwriteAt b.fields i v } ∧
          (overwriteAt b.fields i v).length = b.fields.length)
    ∧ (∀ (b : NdbFilter) (v : Nat),
        ((∃ fld ∈ b.fields, mutMatches .Since fld = true) →
          ∃ i, Filter.since_mut b v =
            some { b with fields := overwriteAt b.fields i v })
        ∧ ((∃ fld ∈ b.fields, mutMatches .Until fld = true) →
          ∃ i, Filter.until_mut b v =
            some { b with fields := overwriteAt b.fields i v })
        ∧ ((∃ fld ∈ b.fields, mutMatches .Limit fld = true) →
          ∃ i, Filter.limit_mut b v =
            some { b with fields := overwriteAt b.fields i v }))
    ∧ (∀ a c : Nat,
        ((FilterBuilder.since newFilterBuilder a).bind fun b1 =>
            FilterBuilder.since b1 c).map (fun b2 => (FilterBuilder.build b2).fields)
          = some [⟨.Since, [.Int c]⟩]) := by
  refine ⟨?_, ?_, ?_⟩
  · intro ft _ b v h
    obtain ⟨i, hi, _, _, hset⟩ := setFirstMut_of_mem ft v b.fields h
    exact ⟨i, hi, by rw [upsertScalar, hset], by simp [overwriteAt]⟩
  · intro b v
    refine ⟨?_, ?_, ?_⟩
    · intro h
      obtain ⟨i, _, _, _, hset⟩ := setFirstMut_of_mem .Since v b.fields h
      exact ⟨i, by rw [Filter.since_mut, hset]⟩
    · intro h
      obtain ⟨i, _, _, _, hset⟩ := setFirstMut_of_mem .Until v b.fields h
      exact ⟨i, by rw [Filter.until_mut, hset]⟩
    · intro h
      obtain ⟨i, _, _, _, hset⟩ := setFirstMut_of_mem .Limit v b.fields h
      exact ⟨i, by rw [Filter.limit_mut, hset]⟩
  · intro a c
    rfl

/-- Witness for C3: overwriting the since value 1 with 9 in a
one-field filter yields the one-field filter holding 9. -/
theorem filter_scalar_field_overwritten_witness :
    upsertScalar .Since ⟨false, [⟨.Since, [.Int 1]⟩], none⟩ 9 =
      some ⟨false, [⟨.Since, [.Int 9]⟩], none⟩ := by
  obtain ⟨i, hi, heq, _⟩ :=
    filter_scalar_field_overwritten.1 .Since (.inl rfl)
      ⟨false, [⟨.Since, [.Int 1]⟩], none⟩ 9
      ⟨⟨.Since, [.Int 1]⟩, by decide, by decide⟩
  have hz : i = 0 := by
    simp at hi
    omega
  subst hz
  exact heq.trans (by decide)

/-- C6: the mutable field iterator hands out only the scalar singleton
fields: `field_mut` is `Some` exactly on a field whose element count is
1, whose element type is Int and whose field type is Since, Until or
Limit; and mutating such a scalar through it (`Filter::since_mut`)
performs `overwriteAt` — a positional `set` of that one field with only
its element list replaced by the new value, keeping its field type —
so every other field of the filter is unchanged and the field table
keeps its length (no new table is allocated). -/
theorem field_mut_only_scalar_singletons :
    (∀ f : FilterField,
      (f.field_mut ≠ none) ↔
        (f.count = 1 ∧ f.elemtype = some .Int ∧
          (f.fieldtype = .Since ∨ f.fieldtype = .Until ∨ f.fieldtype = .Limit)))
    ∧ (∀ (flt : NdbFilter) (v : Nat),
        (∃ fld ∈ flt.fields, mutMatches .Since fld = true) →
        ∃ i, i < flt.fields.length ∧
          Filter.since_mut flt v =
            some { flt with fields := overwriteAt flt.fields i v } ∧
          ((overwriteAt flt.fields i v).getD i dfltField).fieldtype
            = (flt.fields.getD i dfltField).fieldtype ∧
          (∀ j, j ≠ i →
            (overwriteAt flt.fields i v).getD j dfltField
              = flt.fields.getD j dfltField) ∧
          (overwriteAt flt.fields i v).length = flt.fields.length) := by
  constructor
  · intro f
    constructor
    · intro h
      rw [FilterField.field_mut] at h
      split_ifs at h with h1 h2
      · simp at h
      · simp at h
      · refine ⟨by omega, by simpa using h2, ?_⟩
        cases hft : f.fieldtype <;> simp [hft] at h ⊢
    · rintro ⟨h1, h2, h3⟩
      rw [FilterField.field_mut, if_neg (by omega), if_neg (by simp [h2])]
      rcases h3 with h3 | h3 | h3 <;> simp [h3]
  · intro flt v h
    obtain ⟨i, hi, _, _, hset⟩ := setFirstMut_of_mem .Since v flt.fields h
    refine ⟨i, hi, by rw [Filter.since_mut, hset], ?_, ?_, by simp [overwriteAt]⟩
    · have e0 : (overwriteAt flt.fields i v).getD i dfltField =
          { flt.fields.getD i dfltField with elems := [.Int v] } := by
        rw [overwriteAt, List.getD_eq_getElem _ _ (by simpa using hi)]
        simp
      rw [e0]
    · intro j hj
      by_cases hjl : j < flt.fields.length
      · have e1 : (overwriteAt flt.fields i v).getD j dfltField =
            flt.fields.getD j dfltField := by
          rw [overwriteAt, List.getD_eq_getElem _ _ (by simpa using hjl),
            List.getD_eq_getElem _ _ hjl]
          exact List.getElem_set_ne (Ne.symm hj) _
        rw [e1]
      · have e1 : (overwriteAt flt.fields i v).getD j dfltField = dfltField := by
          apply List.getD_eq_default
          simpa [overwriteAt] using Nat.le_of_not_lt hjl
        have e2 : flt.fields.getD j dfltField = dfltField :=
          List.getD_eq_default _ _ (Nat.le_of_not_lt hjl)
        rw [e1, e2]

/-- Witness for C6: mutating since on a two-field filter changes only
the since field. -/
theorem field_mut_only_scalar_singletons_witness :
    ∃ i, i < 2 ∧
      Filter.since_mut ⟨true, [⟨.Kinds, [.Int 1]⟩, ⟨.Since, [.Int 4]⟩], none⟩ 8 =
        some ⟨true, overwriteAt [⟨.Kinds, [.Int 1]⟩, ⟨.Since, [.Int 4]⟩] i 8, none⟩ := by
  obtain ⟨i, hi, heq, _⟩ :=
    (field_mut_only_scalar_singletons).2
      ⟨true, [⟨.Kinds, [.Int 1]⟩, ⟨.Since, [.Int 4]⟩], none⟩ 8
      ⟨⟨.Since, [.Int 4]⟩, by decide, by decide⟩
  exact ⟨i, by simpa using hi, heq⟩


theorem hexVal_hexDigit : ∀ n, n < 16 → hexVal (hexDigit n) = some n := by
  decide

theorem hexToBytes_flatMap_byteToHex :
    ∀ bs : List Nat, (∀ b ∈ bs, b < 256) →
      hexToBytes (bs.flatMap byteToHex) = some bs := by
  intro bs
  induction bs with
  | nil => intro _; rfl
  | cons b rest ih =>
    intro h
    have hb : b < 256 := h b (List.mem_cons_self b rest)
    have h1 : hexVal (hexDigit (b / 16)) = some (b / 16) :=
      hexVal_hexDigit _ (by omega)
    have h2 : hexVal (hexDigit (b % 16)) = some (b % 16) :=
      hexVal_hexDigit _ (by omega)
    have hrest : hexToBytes (rest.flatMap byteToHex) = some rest :=
      ih fun x hx => h x (List.mem_cons_of_mem _ hx)
    show hexToBytes
        (hexDigit (b / 16) :: hexDigit (b % 16) :: rest.flatMap byteToHex) = _
    rw [hexToBytes, h1, h2]
    simp only [hrest, Option.map_some]
    have hb16 : b / 16 * 16 + b % 16 = b := by omega
    rw [hb16]
    rfl

theorem length_flatMap_byteToHex (bs : List Nat) :
    (bs.flatMap byteToHex).length = 2 * bs.length := by
  induction bs with
  | nil => rfl
  | cons b rest ih =>
    simp [byteToHex] at ih ⊢
    omega

theorem parseIdStr_bytesToHex (v : NoteId) (hv : validId v = true) :
    parseIdStr (bytesToHex v) = some v := by
  rw [validId, Bool.and_eq_true] at hv
  have hlen : v.length = 32 := by simpa using hv.1
  have hbytes : ∀ b ∈ v, b < 256 := by
    intro b hb
    simpa using List.all_eq_true.mp hv.2 b hb
  have hsl : (bytesToHex v).length = 64 := by
    show (v.flatMap byteToHex).length = 64
    rw [length_flatMap_byteToHex, hlen]
  rw [parseIdStr, if_pos hsl]
  exact hexToBytes_flatMap_byteToHex v hbytes

theorem parseIdStr_eq_none_of_not_hexLike (t : String) (h : hexLike t = false) :
    parseIdStr t = none := by
  rw [hexLike] at h
  rw [parseIdStr]
  by_cases hl : t.length = 64
  · rw [if_pos hl]
    have : (hexToBytes t.data).isSome = false := by
      simpa [hl] using h
    exact Option.not_isSome_iff_eq_none.mp (by simp [this])
  · rw [if_neg hl]

theorem mk_two_ne (c : Char) (t : String) (ht : t.data.length ≠ 2) :
    String.mk ['#', c] ≠ t := by
  intro h
  have hd : t.data = ['#', c] := by rw [← h]
  rw [hd] at ht
  exact ht rfl

theorem parseKey_fieldKey (ft : FilterFieldType) (k : String)
    (h : fieldKey ft = some k) : parseKey k = some ft := by
  cases ft with
  | Tags c =>
    have hk : k = String.mk ['#', c] := by
      simpa [fieldKey] using h.symm
    subst hk
    rw [parseKey, if_neg (mk_two_ne c "ids" (by decide)),
      if_neg (mk_two_ne c "authors" (by decide)),
      if_neg (mk_two_ne c "kinds" (by decide)),
      if_neg (mk_two_ne c "since" (by decide)),
      if_neg (mk_two_ne c "until" (by decide)),
      if_neg (mk_two_ne c "limit" (by decide)),
      if_neg (mk_two_ne c "search" (by decide))]
    rfl
  | Ids =>
    have hk : k = "ids" := by simpa [fieldKey] using h.symm
    subst hk
    rfl
  | Authors =>
    have hk : k = "authors" := by simpa [fieldKey] using h.symm
    subst hk
    rfl
  | Kinds =>
    have hk : k = "kinds" := by simpa [fieldKey] using h.symm
    subst hk
    rfl
  | Since =>
    have hk : k = "since" := by simpa [fieldKey] using h.symm
    subst hk
    rfl
  | Until =>
    have hk : k = "until" := by simpa [fieldKey] using h.symm
    subst hk
    rfl
  | Limit =>
    have hk : k = "limit" := by simpa [fieldKey] using h.symm
    subst hk
    rfl
  | Search =>
    have hk : k = "search" := by simpa [fieldKey] using h.symm
    subst hk
    rfl
  | Custom => simp [fieldKey] at h

theorem id_elems_roundtrip :
    ∀ es : List FilterElement,
      (es.all fun e =>
        match e with
        | .Id v => validId v
        | _ => false) = true →
      ∃ js, es.mapM elemToJson = some js ∧
        (js.mapM fun (j : Json) =>
          match j with
          | .str t => (parseIdStr t).map FilterElement.Id
          | _ => none) = some es := by
  intro es
  induction es with
  | nil => intro _; exact ⟨[], rfl, rfl⟩
  | cons e rest ih =>
    intro h
    rw [List.all_cons, Bool.and_eq_true] at h
    obtain ⟨js, hjs, hback⟩ := ih h.2
    cases e with
    | Id v =>
      refine ⟨.str (bytesToHex v) :: js, ?_, ?_⟩
      · rw [List.mapM_cons, hjs]
        rfl
      · rw [List.mapM_cons, hback]
        simp [parseIdStr_bytesToHex v h.1]
    | Str t => simp at h
    | Int n => simp at h
    | Custom => simp at h

theorem int_elems_roundtrip :
    ∀ es : List FilterElement,
      (es.all fun e =>
        match e with
        | .Int _ => true
        | _ => false) = true →
      ∃ js, es.mapM elemToJson = some js ∧
        (js.mapM fun (j : Json) =>
          match j with
          | .num n => some (FilterElement.Int n)
          | _ => none) = some es := by
  intro es
  induction es with
  | nil => intro _; exact ⟨[], rfl, rfl⟩
  | cons e rest ih =>
    intro h
    rw [List.all_cons, Bool.and_eq_true] at h
    obtain ⟨js, hjs, hback⟩ := ih h.2
    cases e with
    | Int n =>
      refine ⟨.num n :: js, ?_, ?_⟩
      · rw [List.mapM_cons, hjs]
        rfl
      · rw [List.mapM_cons, hback]
        rfl
    | Str t => simp at h
    | Id v => simp at h
    | Custom => simp at h

theorem tag_elems_roundtrip :
    ∀ es : List FilterElement,
      (es.all fun e =>
        match e with
        | .Id v => validId v
        | .Str t => !hexLike t
        | _ => false) = true →
      ∃ js, es.mapM elemToJson = some js ∧
        (js.mapM fun (j : Json) =>
          match j with
          | .str t =>
            some (match parseIdStr t with
                  | some v => FilterElement.Id v
                  | none => FilterElement.Str t)
          | _ => none) = some es := by
  intro es
  induction es with
  | nil => intro _; exact ⟨[], rfl, rfl⟩
  | cons e rest ih =>
    intro h
    rw [List.all_cons, Bool.and_eq_true] at h
    obtain ⟨js, hjs, hback⟩ := ih h.2
    cases e with
    | Id v =>
      refine ⟨.str (bytesToHex v) :: js, ?_, ?_⟩
      · rw [List.mapM_cons, hjs]
        rfl
      · rw [List.mapM_cons, hback]
        simp [parseIdStr_bytesToHex v h.1]
    | Str t =>
      have hnone : parseIdStr t = none :=
        parseIdStr_eq_none_of_not_hexLike t (by simpa using h.1)
      refine ⟨.str t :: js, ?_, ?_⟩
      · rw [List.mapM_cons, hjs]
        rfl
      · rw [List.mapM_cons, hback]
        simp [hnone]
    | Int n => simp at h
    | Custom => simp at h

theorem field_roundtrip (f : FilterField) (hf : wfField f = true) :
    ∃ kv, fieldToJson f = some kv ∧
      (parseKey kv.1).bind (fun ft => parseFieldValue ft kv.2) = some f := by
  obtain ⟨ftype, elems⟩ := f
  cases ftype with
  | Ids =>
    obtain ⟨js, hjs, hback⟩ := id_elems_roundtrip elems (by simpa [wfField] using hf)
    refine ⟨("ids", .arr js), ?_, ?_⟩
    · simp only [fieldToJson, fieldKey, Option.some_bind, hjs, Option.map_some]
      rfl
    · have hk : parseKey "ids" = some .Ids := rfl
      simp only [hk, Option.some_bind, parseFieldValue, hback, Option.map_some]
      rfl
  | Authors =>
    obtain ⟨js, hjs, hback⟩ := id_elems_roundtrip elems (by simpa [wfField] using hf)
    refine ⟨("authors", .arr js), ?_, ?_⟩
    · simp only [fieldToJson, fieldKey, Option.some_bind, hjs, Option.map_some]
      rfl
    · have hk : parseKey "authors" = some .Authors := rfl
      simp only [hk, Option.some_bind, parseFieldValue, hback, Option.map_some]
      rfl
  | Kinds =>
    obtain ⟨js, hjs, hback⟩ := int_elems_roundtrip elems (by simpa [wfField] using hf)
    refine ⟨("kinds", .arr js), ?_, ?_⟩
    · simp only [fieldToJson, fieldKey, Option.some_bind, hjs, Option.map_some]
      rfl
    · have hk : parseKey "kinds" = some .Kinds := rfl
      simp only [hk, Option.some_bind, parseFieldValue, hback, Option.map_some]
      rfl
  | Tags c =>
    obtain ⟨js, hjs, hback⟩ := tag_elems_roundtrip elems (by simpa [wfField] using hf)
    refine ⟨(String.mk ['#', c], .arr js), ?_, ?_⟩
    · simp only [fieldToJson, fieldKey, Option.some_bind, hjs, Option.map_some]
      rfl
    · have hk : parseKey (String.mk ['#', c]) = some (.Tags c) :=
        parseKey_fieldKey (.Tags c) _ rfl
      simp only [hk, Option.some_bind, parseFieldValue, hback, Option.map_some]
      rfl
  | Since =>
    rw [wfField] at hf
    rcases elems with _ | ⟨e, rest⟩
    · simp at hf
    cases e with
    | Int n =>
      rcases rest with _ | ⟨e2, rest2⟩
      · exact ⟨("since", .num n), rfl, rfl⟩
      · simp at hf
    | Str t => simp at hf
    | Id v => simp at hf
    | Custom => simp at hf
  | Until =>
    rw [wfField] at hf
    rcases elems with _ | ⟨e, rest⟩
    · simp at hf
    cases e with
    | Int n =>
      rcases rest with _ | ⟨e2, rest2⟩
      · exact ⟨("until", .num n), rfl, rfl⟩
      · simp at hf
    | Str t => simp at hf
    | Id v => simp at hf
    | Custom => simp at hf
  | Limit =>
    rw [wfField] at hf
    rcases elems with _ | ⟨e, rest⟩
    · simp at hf
    cases e with
    | Int n =>
      rcases rest with _ | ⟨e2, rest2⟩
      · exact ⟨("limit", .num n), rfl, rfl⟩
      · simp at hf
    | Str t => simp at hf
    | Id v => simp at hf
    | Custom => simp at hf
  | Search =>
    rw [wfField] at hf
    rcases elems with _ | ⟨e, rest⟩
    · simp at hf
    cases e with
    | Str t =>
      rcases rest with _ | ⟨e2, rest2⟩
      · exact ⟨("search", .str t), rfl, rfl⟩
      · simp at hf
    | Int n => simp at hf
    | Id v => simp at hf
    | Custom => simp at hf
  | Custom => simp [wfField] at hf

theorem fields_roundtrip :
    ∀ fields : List FilterField, (fields.all wfField) = true →
      ∃ kvs, fields.mapM fieldToJson = some kvs ∧
        (kvs.mapM fun kv => (parseKey kv.1).bind fun ft => parseFieldValue ft kv.2)
          = some fields := by
  intro fields
  induction fields with
  | nil => intro _; exact ⟨[], rfl, rfl⟩
  | cons f rest ih =>
    intro h
    rw [List.all_cons, Bool.and_eq_true] at h
    obtain ⟨kv, hkv, hbackkv⟩ := field_roundtrip f h.1
    obtain ⟨kvs, hkvs, hback⟩ := ih h.2
    refine ⟨kv :: kvs, ?_, ?_⟩
    · rw [List.mapM_cons, hkv, hkvs]
      rfl
    · rw [List.mapM_cons, hback]
      simp only [hbackkv, Option.some_bind]
      rfl

/-- C7: for every filter built from ids, authors, kinds, tag, since,
until, limit and search fields, serializing it to JSON and parsing that
JSON back yields the same filter field by field:
`Filter::from_json(f.json()) == f`. -/
theorem filter_json_round_trip (f : NdbFilter) (hf : wfFilter f = true) :
    ∃ j, filterToJson f = some j ∧ filterFromJson j = some f := by
  obtain ⟨fin, fields, cur⟩ := f
  rw [wfFilter, Bool.and_eq_true, Bool.and_eq_true] at hf
  obtain ⟨⟨hfin, hcur⟩, hfields⟩ := hf
  have hfin2 : fin = true := hfin
  have hcur2 : cur = none := by
    cases cur with
    | none => rfl
    | some x => simp at hcur
  subst hfin2
  subst hcur2
  obtain ⟨kvs, hkvs, hback⟩ := fields_roundtrip fields hfields
  refine ⟨.obj kvs, ?_, ?_⟩
  · rw [filterToJson, hkvs]
    rfl
  · rw [filterFromJson, hback]
    rfl

/-- Witness for C7: a built filter with kinds, search and since fields
round-trips through the JSON codec. -/
theorem filter_json_round_trip_witness :
    ∃ j, filterToJson
        ⟨true, [⟨.Kinds, [.Int 1]⟩, ⟨.Search, [.Str "abc"]⟩, ⟨.Since, [.Int 42]⟩], none⟩
        = some j ∧
      filterFromJson j = some
        ⟨true, [⟨.Kinds, [.Int 1]⟩, ⟨.Search, [.Str "abc"]⟩, ⟨.Since, [.Int 42]⟩], none⟩ :=
  filter_json_round_trip
    ⟨true, [⟨.Kinds, [.Int 1]⟩, ⟨.Search, [.Str "abc"]⟩, ⟨.Since, [.Int 42]⟩], none⟩
    (by decide)

end Nostrdb
